import Mathlib

/-!
# Skid-steering odometry (`src/odometry.cpp`)

A shallow embedding of the kinematic estimator of the odometry node: the
forward kinematics `angular_velocity_estimator`, the pose integrator of class
`skid_steering` (`euler_integration`, `runge_kutta_integration`,
`select_integration`), the mode selector `set_integration_method` and the two
reset services.

The C++ type `double` is read as an arbitrary field `K` (linearly ordered
where signs matter); the theorems that need trigonometric facts are stated
over `ℝ`.  The `<math.h>` functions `cos` and `sin` are not part of the
source file and are taken as parameters `cos sin : K → K`; they are
instantiated with `Real.cos` and `Real.sin` over `ℝ`.  Every method of the
class becomes a function from the object state to the new object state.
-/

namespace Odometry

/-! ## Constants (`#define`s, lines 17-20) -/

/-- Reduction gear ratio, `#define GEAR_RATIO 0.02615575`. -/
def GEAR_RATIO {K : Type} [Field K] : K := 2615575 / 100000000

/-- RPM to rad/s conversion, `#define RPM_TO_RADS 0.104719755`. -/
def RPM_TO_RADS {K : Type} [Field K] : K := 104719755 / 1000000000

/-- Wheel radius, `#define RADIUS 0.1575`. -/
def RADIUS {K : Type} [Field K] : K := 1575 / 10000

/-- Apparent baseline, `#define APPARENT_BASELINE 1.03334887`. -/
def APPARENT_BASELINE {K : Type} [Field K] : K := 103334887 / 100000000

/-! ## Data model (lines 23-39, 74-79) -/

/-- The struct `pose`. -/
structure Pose (K : Type) where
  x : K
  y : K
  theta : K
  deriving DecidableEq, Repr

/-- The struct `rpm`. -/
structure Wheels_rpm (K : Type) where
  fl : K
  fr : K
  rl : K
  rr : K
  deriving DecidableEq, Repr

/-- The struct `velocity`. -/
structure Velocity (K : Type) where
  linear : K
  angular : K
  deriving DecidableEq, Repr

/-- The data members of class `skid_steering` that hold estimator state
(the ROS handles, publishers and service servers carry no estimator state). -/
structure skid_steering (K : Type) where
  current_pose : Pose K
  prev_pose : Pose K
  velocity : Velocity K
  prev_time : K
  /-- The value 0 selects Euler, 1 selects Runge-Kutta. -/
  method : Int
  deriving DecidableEq, Repr

/-- The request of service `Given_reset`: the fields `req.x`, `req.y`,
`req.theta` read by `given_pose_reset_callback`. -/
structure Given_reset_Request (K : Type) where
  x : K
  y : K
  theta : K
  deriving DecidableEq, Repr

section Defs

variable {K : Type} [Field K]

/-! ## Class `skid_steering` -/

/-- The constructor `skid_steering::skid_steering()` (lines 92-108).  It
assigns `current_pose`, `velocity`, `prev_time` and `method`; `prev_pose` is
left unassigned, so its content is the argument `indeterminate`. -/
def new_skid_steering (indeterminate : Pose K) : skid_steering K :=
  { current_pose := { x := 0, y := 0, theta := 0 }
    prev_pose := indeterminate
    velocity := { linear := 0, angular := 0 }
    prev_time := 0
    method := 0 }

/-- The method `set_initial_pose` (lines 111-118); `pose` is the vector read
from the parameter `/initial_pose`.  The indexing `pose[0..2]` is defined
only when the vector has at least three entries. -/
def set_initial_pose (s : skid_steering K) (pose : List K) : Option (skid_steering K) :=
  match pose with
  | p0 :: p1 :: p2 :: _ => some { s with prev_pose := { x := p0, y := p1, theta := p2 } }
  | _ => none

/-- The method `euler_integration` (lines 120-131). -/
def euler_integration (cos sin : K → K) (s : skid_steering K) (velocity : Velocity K)
    (current_time : K) : skid_steering K :=
  let delta_time := current_time - s.prev_time
  let current_pose : Pose K :=
    { x := s.prev_pose.x + velocity.linear * delta_time * cos s.prev_pose.theta
      y := s.prev_pose.y + velocity.linear * delta_time * sin s.prev_pose.theta
      theta := s.prev_pose.theta + velocity.angular * delta_time }
  { s with current_pose := current_pose, prev_pose := current_pose, prev_time := current_time }

/-- The method `runge_kutta_integration` (lines 133-143). -/
def runge_kutta_integration (cos sin : K → K) (s : skid_steering K) (velocity : Velocity K)
    (current_time : K) : skid_steering K :=
  let delta_time := current_time - s.prev_time
  let current_pose : Pose K :=
    { x := s.prev_pose.x
        + velocity.linear * delta_time * cos (s.prev_pose.theta + (velocity.angular * delta_time) / 2)
      y := s.prev_pose.y
        + velocity.linear * delta_time * sin (s.prev_pose.theta + (velocity.angular * delta_time) / 2)
      theta := s.prev_pose.theta + velocity.angular * delta_time }
  { s with current_pose := current_pose, prev_pose := current_pose, prev_time := current_time }

/-- The method `set_integration_method` (lines 184-186). -/
def set_integration_method (s : skid_steering K) (m : Int) : skid_steering K :=
  if m = 0 ∨ m = 1 then { s with method := m } else s

/-- The method `select_integration` (lines 188-191). -/
def select_integration (cos sin : K → K) (s : skid_steering K) (velocity : Velocity K)
    (current_time : K) : skid_steering K :=
  if s.method = 0 then euler_integration cos sin s velocity current_time
  else if s.method = 1 then runge_kutta_integration cos sin s velocity current_time
  else s

/-- The service handler `reset_callback` (lines 193-199): the returned
boolean and the new object state.  The request has no field that is read. -/
def reset_callback (s : skid_steering K) : Bool × skid_steering K :=
  (true, { s with prev_pose := { x := 0, y := 0, theta := s.prev_pose.theta } })

/-- The service handler `given_pose_reset_callback` (lines 201-209): the
returned boolean and the new object state. -/
def given_pose_reset_callback (s : skid_steering K) (req : Given_reset_Request K) :
    Bool × skid_steering K :=
  (true, { s with prev_pose := { x := req.x, y := req.y, theta := req.theta } })

/-! ## Free functions -/

/-- The local `left_wheels_avg_rpm` of `angular_velocity_estimator` (line 239). -/
def left_wheels_avg_rpm (rpm : Wheels_rpm K) : K :=
  (-((rpm.fl + rpm.rl) * GEAR_RATIO)) / 2

/-- The local `right_wheels_avg_rpm` of `angular_velocity_estimator` (line 240). -/
def right_wheels_avg_rpm (rpm : Wheels_rpm K) : K :=
  ((rpm.fr + rpm.rr) * GEAR_RATIO) / 2

/-- The local `left_avg_velocity` of `angular_velocity_estimator` (line 242). -/
def left_avg_velocity (rpm : Wheels_rpm K) : K :=
  left_wheels_avg_rpm rpm * RADIUS * RPM_TO_RADS

/-- The local `right_avg_velocity` of `angular_velocity_estimator` (line 243). -/
def right_avg_velocity (rpm : Wheels_rpm K) : K :=
  right_wheels_avg_rpm rpm * RADIUS * RPM_TO_RADS

/-- The function `angular_velocity_estimator` (lines 236-247); the result is
the content written through the out-parameter `velocity`. -/
def angular_velocity_estimator (rpm : Wheels_rpm K) : Velocity K :=
  { linear := (left_avg_velocity rpm + right_avg_velocity rpm) / 2
    angular := (right_avg_velocity rpm - left_avg_velocity rpm) / APPARENT_BASELINE }

/-- The function `dynrec_callback` (lines 275-277); `integration_method` is
the field `config.integration_method`. -/
def dynrec_callback (integration_method : Int) (s : skid_steering K) : skid_steering K :=
  set_integration_method s integration_method

/-- The estimator part of `sync_callback` (lines 250-273): the four wheel
readings are stored, the velocity is estimated and the pose is integrated at
the stamp of the first message.  The result is the velocity handed to the
publishers and the new object state. -/
def sync_callback (cos sin : K → K) (s : skid_steering K) (wheels_rpm : Wheels_rpm K)
    (stamp : K) : Velocity K × skid_steering K :=
  let velocity := angular_velocity_estimator wheels_rpm
  (velocity, select_integration cos sin s velocity stamp)

/-! ## Executions -/

/-- One call on a `skid_steering` object after construction. -/
inductive Call (K : Type) where
  | set_integration_method (m : Int)
  | select_integration (velocity : Velocity K) (current_time : K)
  | reset_callback
  | given_pose_reset_callback (req : Given_reset_Request K)

/-- The object state after one call. -/
def Call.apply (cos sin : K → K) (s : skid_steering K) : Call K → skid_steering K
  | .set_integration_method m => Odometry.set_integration_method s m
  | .select_integration velocity current_time =>
      Odometry.select_integration cos sin s velocity current_time
  | .reset_callback => (Odometry.reset_callback s).2
  | .given_pose_reset_callback req => (Odometry.given_pose_reset_callback s req).2

/-- The object state after a sequence of calls, first call first. -/
def run (cos sin : K → K) (s : skid_steering K) (calls : List (Call K)) : skid_steering K :=
  calls.foldl (Call.apply cos sin) s

end Defs


/-! ## Kinematic model -/

section Kinematics

variable {K : Type} [LinearOrderedField K]

theorem GEAR_RATIO_pos : (0 : K) < GEAR_RATIO := by
  unfold GEAR_RATIO; positivity

theorem RPM_TO_RADS_pos : (0 : K) < RPM_TO_RADS := by
  unfold RPM_TO_RADS; positivity

theorem RADIUS_pos : (0 : K) < RADIUS := by
  unfold RADIUS; positivity

theorem APPARENT_BASELINE_pos : (0 : K) < APPARENT_BASELINE := by
  unfold APPARENT_BASELINE; positivity

/-- The factor that turns the sum of the two readings of a side into the
surface speed of that side. -/
theorem side_factor_pos : (0 : K) < GEAR_RATIO * RADIUS * RPM_TO_RADS / 2 := by
  have h1 := GEAR_RATIO_pos (K := K)
  have h2 := RADIUS_pos (K := K)
  have h3 := RPM_TO_RADS_pos (K := K)
  positivity

/-- The speed of the left side in terms of the raw readings: the sum of the
two left readings enters negated. -/
theorem left_avg_velocity_eq (rpm : Wheels_rpm K) :
    left_avg_velocity rpm
      = -((rpm.fl + rpm.rl) * ( GEAR_RATIO * RADIUS * RPM_TO_RADS / 2)) := by
  unfold left_avg_velocity left_wheels_avg_rpm; ring

/-- The speed of the right side in terms of the raw readings. -/
theorem right_avg_velocity_eq (rpm : Wheels_rpm K) :
    right_avg_velocity rpm
      = (rpm.fr + rpm.rr) * ( GEAR_RATIO * RADIUS * RPM_TO_RADS / 2) := by
  unfold right_avg_velocity right_wheels_avg_rpm; ring

/-- For every sample, the per-side condition `left = -right`, `right ≠ 0` is
the raw-reading condition `fl + rl = fr + rr ≠ 0`. -/
theorem side_speeds_opposite_iff (rpm : Wheels_rpm K) :
    (left_avg_velocity rpm = -right_avg_velocity rpm ∧ right_avg_velocity rpm ≠ 0)
      ↔ (rpm.fl + rpm.rl = rpm.fr + rpm.rr ∧ rpm.fr + rpm.rr ≠ 0) := by
  have hc := side_factor_pos (K := K)
  rw [left_avg_velocity_eq, right_avg_velocity_eq, neg_inj]
  constructor
  · rintro ⟨h1, h2⟩
    exact ⟨mul_right_cancel₀ hc.ne' h1, fun h0 => h2 (by rw [h0, zero_mul])⟩
  · rintro ⟨h1, h2⟩
    exact ⟨by rw [h1], mul_ne_zero h2 hc.ne'⟩

/-- C1 (as stated) fails: with all four raw readings equal to 1 the estimator
returns linear velocity 0 and a nonzero angular velocity, not angular
velocity 0 and linear velocity `GEAR_RATIO * RPM_TO_RADS * RADIUS * 1`. -/
theorem equal_readings_yield_rotation :
    (0 : ℝ) < 1 ∧
    (angular_velocity_estimator ({ fl := 1, fr := 1, rl := 1, rr := 1 } : Wheels_rpm ℝ)).linear = 0 ∧
    (angular_velocity_estimator ({ fl := 1, fr := 1, rl := 1, rr := 1 } : Wheels_rpm ℝ)).angular ≠ 0 ∧
    (angular_velocity_estimator ({ fl := 1, fr := 1, rl := 1, rr := 1 } : Wheels_rpm ℝ)).linear
      ≠ GEAR_RATIO * RPM_TO_RADS * RADIUS * 1 := by
  refine ⟨one_pos, ?_, ?_, ?_⟩ <;>
    norm_num [angular_velocity_estimator, left_avg_velocity, right_avg_velocity,
      left_wheels_avg_rpm, right_wheels_avg_rpm, GEAR_RATIO, RPM_TO_RADS, RADIUS,
      APPARENT_BASELINE]

/-- C1 (amended): the left readings enter negated, so straight motion is the
sample `fr = rr = r`, `fl = rl = -r`; for `r > 0` it yields angular velocity
0 and linear velocity `GEAR_RATIO * RPM_TO_RADS * RADIUS * r`, which is
positive.  A sample with all four raw readings equal to `r > 0` yields linear
velocity 0 and the positive angular velocity
`2 * (GEAR_RATIO * RPM_TO_RADS * RADIUS * r) / APPARENT_BASELINE`. -/
theorem angular_velocity_estimator_symmetry (r : K) (hr : 0 < r) :
    ((angular_velocity_estimator { fl := -r, fr := r, rl := -r, rr := r }).angular = 0 ∧
      (angular_velocity_estimator { fl := -r, fr := r, rl := -r, rr := r }).linear
        = GEAR_RATIO * RPM_TO_RADS * RADIUS * r ∧
      0 < (angular_velocity_estimator { fl := -r, fr := r, rl := -r, rr := r }).linear) ∧
    ((angular_velocity_estimator { fl := r, fr := r, rl := r, rr := r }).linear = 0 ∧
      (angular_velocity_estimator { fl := r, fr := r, rl := r, rr := r }).angular
        = 2 * ( GEAR_RATIO * RPM_TO_RADS * RADIUS * r) / APPARENT_BASELINE ∧
      0 < (angular_velocity_estimator { fl := r, fr := r, rl := r, rr := r }).angular) := by
  have hG := GEAR_RATIO_pos (K := K)
  have hC := RPM_TO_RADS_pos (K := K)
  have hR := RADIUS_pos (K := K)
  have hB := APPARENT_BASELINE_pos (K := K)
  have hlin : (angular_velocity_estimator { fl := -r, fr := r, rl := -r, rr := r }).linear
      = GEAR_RATIO * RPM_TO_RADS * RADIUS * r := by
    simp only [angular_velocity_estimator, left_avg_velocity_eq, right_avg_velocity_eq]; ring
  have hang : (angular_velocity_estimator { fl := r, fr := r, rl := r, rr := r }).angular
      = 2 * ( GEAR_RATIO * RPM_TO_RADS * RADIUS * r) / APPARENT_BASELINE := by
    simp only [angular_velocity_estimator, left_avg_velocity_eq, right_avg_velocity_eq]; ring
  refine ⟨⟨?_, hlin, ?_⟩, ?_, hang, ?_⟩
  · simp only [angular_velocity_estimator, left_avg_velocity_eq, right_avg_velocity_eq]; ring
  · rw [hlin]; positivity
  · simp only [angular_velocity_estimator, left_avg_velocity_eq, right_avg_velocity_eq]; ring
  · rw [hang]; positivity

/-- Witness of the symmetry theorem at `r = 1000` over `ℚ`. -/
theorem angular_velocity_estimator_symmetry_witness :
    (0 : ℚ) < 1000 ∧
    (angular_velocity_estimator ({ fl := -1000, fr := 1000, rl := -1000, rr := 1000 } : Wheels_rpm ℚ)).angular = 0 ∧
    (angular_velocity_estimator ({ fl := -1000, fr := 1000, rl := -1000, rr := 1000 } : Wheels_rpm ℚ)).linear
      = GEAR_RATIO * RPM_TO_RADS * RADIUS * 1000 :=
  ⟨by norm_num, (angular_velocity_estimator_symmetry (1000 : ℚ) (by norm_num)).1.1,
    (angular_velocity_estimator_symmetry (1000 : ℚ) (by norm_num)).1.2.1⟩

/-- C10: when the per-side speeds satisfy `left = -right` and `right ≠ 0`
(in raw readings `fl + rl = fr + rr ≠ 0`), the estimator yields linear
velocity 0 and angular velocity `(right - left) / APPARENT_BASELINE`, which
is nonzero and is positive exactly when the right-side speed exceeds the
left-side speed. -/
theorem angular_velocity_estimator_pure_rotation (rpm : Wheels_rpm K)
    (hsym : left_avg_velocity rpm = -right_avg_velocity rpm)
    (hne : right_avg_velocity rpm ≠ 0) :
    ((left_avg_velocity rpm = -right_avg_velocity rpm ∧ right_avg_velocity rpm ≠ 0)
      ↔ (rpm.fl + rpm.rl = rpm.fr + rpm.rr ∧ rpm.fr + rpm.rr ≠ 0)) ∧
    (angular_velocity_estimator rpm).linear = 0 ∧
    (angular_velocity_estimator rpm).angular
      = (right_avg_velocity rpm - left_avg_velocity rpm) / APPARENT_BASELINE ∧
    (angular_velocity_estimator rpm).angular ≠ 0 ∧
    (0 < (angular_velocity_estimator rpm).angular
      ↔ left_avg_velocity rpm < right_avg_velocity rpm) := by
  have hB := APPARENT_BASELINE_pos (K := K)
  have hc := side_factor_pos (K := K)
  refine ⟨?_, ?_, rfl, ?_, ?_⟩
  · rw [left_avg_velocity_eq, right_avg_velocity_eq, neg_inj]
    constructor
    · rintro ⟨h1, h2⟩
      exact ⟨mul_right_cancel₀ hc.ne' h1, fun h0 => h2 (by rw [h0, zero_mul])⟩
    · rintro ⟨h1, h2⟩
      exact ⟨by rw [h1], mul_ne_zero h2 hc.ne'⟩
  · simp only [angular_velocity_estimator, hsym]; ring
  · simp only [angular_velocity_estimator, hsym]
    have : right_avg_velocity rpm - -right_avg_velocity rpm = 2 * right_avg_velocity rpm := by ring
    rw [this]
    exact div_ne_zero (mul_ne_zero two_ne_zero hne) hB.ne'
  · simp only [angular_velocity_estimator]
    rw [div_pos_iff_of_pos_right hB, sub_pos]

/-- Witness of the pure-rotation theorem: all four raw readings equal to
1000, so that the two sides turn in opposite directions. -/
theorem angular_velocity_estimator_pure_rotation_witness :
    (angular_velocity_estimator ({ fl := 1000, fr := 1000, rl := 1000, rr := 1000 } : Wheels_rpm ℚ)).linear = 0 ∧
    0 < (angular_velocity_estimator ({ fl := 1000, fr := 1000, rl := 1000, rr := 1000 } : Wheels_rpm ℚ)).angular := by
  have h := angular_velocity_estimator_pure_rotation
    ({ fl := 1000, fr := 1000, rl := 1000, rr := 1000 } : Wheels_rpm ℚ)
    (by norm_num [left_avg_velocity, right_avg_velocity, left_wheels_avg_rpm,
      right_wheels_avg_rpm, GEAR_RATIO, RADIUS, RPM_TO_RADS])
    (by norm_num [right_avg_velocity, right_wheels_avg_rpm, GEAR_RATIO, RADIUS, RPM_TO_RADS])
  refine ⟨h.2.1, h.2.2.2.2.2 ?_⟩
  norm_num [left_avg_velocity, right_avg_velocity, left_wheels_avg_rpm, right_wheels_avg_rpm,
    GEAR_RATIO, RADIUS, RPM_TO_RADS]

end Kinematics

/-! ## Pose integrator -/

section Integrator

variable {K : Type} [Field K] (cos sin : K → K)

/-- With `method == 0` the call is dispatched to `euler_integration`. -/
theorem select_integration_euler (s : skid_steering K) (velocity : Velocity K) (t : K)
    (h : s.method = 0) :
    select_integration cos sin s velocity t = euler_integration cos sin s velocity t := by
  simp [select_integration, h]

/-- With `method == 1` the call is dispatched to `runge_kutta_integration`. -/
theorem select_integration_runge_kutta (s : skid_steering K) (velocity : Velocity K) (t : K)
    (h : s.method = 1) :
    select_integration cos sin s velocity t = runge_kutta_integration cos sin s velocity t := by
  simp [select_integration, h]

/-- Seeding right after construction, as `main` does, gives the constructed
state whose `prev_pose` is the seed; a vector with fewer than three entries
gives no state. -/
theorem set_initial_pose_new_skid_steering (indeterminate : Pose K) (p0 p1 p2 : K)
    (rest : List K) :
    set_initial_pose (new_skid_steering indeterminate) (p0 :: p1 :: p2 :: rest)
      = some (new_skid_steering { x := p0, y := p1, theta := p2 }) ∧
    set_initial_pose (new_skid_steering indeterminate) [p0, p1] = none ∧
    set_initial_pose (new_skid_steering indeterminate) [] = none :=
  ⟨rfl, rfl, rfl⟩

/-- In both modes the integrator copies the new pose into `prev_pose` and
stores the timestamp, and the new heading is the old one plus
`angular * delta_time`. -/
theorem select_integration_common (s : skid_steering K) (velocity : Velocity K) (t : K)
    (hm : s.method = 0 ∨ s.method = 1) :
    (select_integration cos sin s velocity t).prev_time = t ∧
    (select_integration cos sin s velocity t).prev_pose
      = (select_integration cos sin s velocity t).current_pose ∧
    (select_integration cos sin s velocity t).current_pose.theta
      = s.prev_pose.theta + velocity.angular * (t - s.prev_time) ∧
    (select_integration cos sin s velocity t).method = s.method ∧
    (select_integration cos sin s velocity t).velocity = s.velocity := by
  rcases hm with h | h
  · rw [select_integration_euler cos sin s velocity t h]
    simp [euler_integration]
  · rw [select_integration_runge_kutta cos sin s velocity t h]
    simp [runge_kutta_integration]

/-- A step over a zero elapsed interval returns the previous pose. -/
theorem select_integration_zero_elapsed (s : skid_steering K) (velocity : Velocity K)
    (hm : s.method = 0 ∨ s.method = 1) :
    (select_integration cos sin s velocity s.prev_time).current_pose = s.prev_pose := by
  rcases hm with h | h
  · rw [select_integration_euler cos sin s velocity _ h]
    simp [euler_integration]
  · rw [select_integration_runge_kutta cos sin s velocity _ h]
    simp [runge_kutta_integration]

/-- A step with zero velocity returns the previous pose. -/
theorem select_integration_zero_velocity (s : skid_steering K) (t : K)
    (hm : s.method = 0 ∨ s.method = 1) :
    (select_integration cos sin s { linear := 0, angular := 0 } t).current_pose = s.prev_pose := by
  rcases hm with h | h
  · rw [select_integration_euler cos sin s _ t h]
    simp [euler_integration]
  · rw [select_integration_runge_kutta cos sin s _ t h]
    simp [runge_kutta_integration]

end Integrator

/-! ## Integrator claims -/

section IntegratorClaims

variable {K : Type} [Field K] (cos sin : K → K)

/-- C2 (as stated) fails: the constructed estimator seeded with pose
`(0, 0, 0)` and called for the first time with velocity `(1, 0)` at timestamp
`1` moves to `x = 1`; the elapsed interval of the first call is `1 - 0`. -/
theorem first_call_displaces_seed_pose :
    set_initial_pose (new_skid_steering ({ x := 7, y := 7, theta := 7 } : Pose ℝ)) ([0, 0, 0] : List ℝ)
      = some (new_skid_steering ({ x := 0, y := 0, theta := 0 } : Pose ℝ)) ∧
    (new_skid_steering ({ x := 0, y := 0, theta := 0 } : Pose ℝ)).prev_time = 0 ∧
    (new_skid_steering ({ x := 0, y := 0, theta := 0 } : Pose ℝ)).method = 0 ∧
    (select_integration Real.cos Real.sin (new_skid_steering { x := 0, y := 0, theta := 0 })
      { linear := 1, angular := 0 } 1).current_pose = { x := 1, y := 0, theta := 0 } ∧
    (select_integration Real.cos Real.sin (new_skid_steering { x := 0, y := 0, theta := 0 })
      { linear := 1, angular := 0 } 1).current_pose
      ≠ (new_skid_steering ({ x := 0, y := 0, theta := 0 } : Pose ℝ)).prev_pose := by
  refine ⟨rfl, rfl, rfl, ?_, ?_⟩ <;>
    simp [select_integration, euler_integration, new_skid_steering]

/-- C2 (amended): for an estimator with `prev_time = 0` and method 0 or 1,
seeded with any pose, the first `select_integration` call with velocity
`(v, w)` and timestamp `t` records `t` as the previous timestamp and applies
the step with elapsed interval `t - 0 = t`: the heading becomes
`theta + w * t` and the position becomes the Euler (method 0) or midpoint
(method 1) displacement of the seed over `t`.  The current pose equals the
seed pose when `t = 0`, and when `v = 0` and `w = 0`. -/
theorem select_integration_first_sample (s : skid_steering K) (velocity : Velocity K) (t : K)
    (h0 : s.prev_time = 0) (hm : s.method = 0 ∨ s.method = 1) :
    (select_integration cos sin s velocity t).prev_time = t ∧
    (select_integration cos sin s velocity t).prev_pose
      = (select_integration cos sin s velocity t).current_pose ∧
    (select_integration cos sin s velocity t).current_pose.theta
      = s.prev_pose.theta + velocity.angular * t ∧
    (s.method = 0 →
      (select_integration cos sin s velocity t).current_pose.x
        = s.prev_pose.x + velocity.linear * t * cos s.prev_pose.theta ∧
      (select_integration cos sin s velocity t).current_pose.y
        = s.prev_pose.y + velocity.linear * t * sin s.prev_pose.theta) ∧
    (s.method = 1 →
      (select_integration cos sin s velocity t).current_pose.x
        = s.prev_pose.x
          + velocity.linear * t * cos (s.prev_pose.theta + velocity.angular * t / 2) ∧
      (select_integration cos sin s velocity t).current_pose.y
        = s.prev_pose.y
          + velocity.linear * t * sin (s.prev_pose.theta + velocity.angular * t / 2)) ∧
    (t = 0 → (select_integration cos sin s velocity t).current_pose = s.prev_pose) ∧
    (velocity.linear = 0 → velocity.angular = 0 →
      (select_integration cos sin s velocity t).current_pose = s.prev_pose) := by
  have hc := select_integration_common cos sin s velocity t hm
  refine ⟨hc.1, hc.2.1, ?_, ?_, ?_, ?_, ?_⟩
  · rw [hc.2.2.1, h0, sub_zero]
  · intro h
    rw [select_integration_euler cos sin s velocity t h]
    simp [euler_integration, h0]
  · intro h
    rw [select_integration_runge_kutta cos sin s velocity t h]
    simp [runge_kutta_integration, h0]
  · intro ht
    have hz := select_integration_zero_elapsed cos sin s velocity hm
    rw [h0] at hz
    rw [ht]; exact hz
  · intro hv hw
    have hz := select_integration_zero_velocity cos sin s t hm
    have hvel : velocity = { linear := 0, angular := 0 } := by
      cases velocity; simp_all
    rw [hvel]; exact hz

/-- Witness of the first-sample theorem: the constructed estimator seeded
with `(1, 2, 0)`, first called with velocity `(3, 0)` at timestamp `10`. -/
theorem select_integration_first_sample_witness :
    (select_integration Real.cos Real.sin
        (new_skid_steering ({ x := 1, y := 2, theta := 0 } : Pose ℝ))
        { linear := 3, angular := 0 } 10).prev_time = 10 ∧
    (select_integration Real.cos Real.sin
        (new_skid_steering ({ x := 1, y := 2, theta := 0 } : Pose ℝ))
        { linear := 3, angular := 0 } 10).current_pose.x = 31 := by
  have h := select_integration_first_sample Real.cos Real.sin
    (new_skid_steering ({ x := 1, y := 2, theta := 0 } : Pose ℝ))
    { linear := 3, angular := 0 } 10 rfl (Or.inl rfl)
  refine ⟨h.1, ?_⟩
  rw [(h.2.2.2.1 rfl).1]
  norm_num [new_skid_steering]

/-- C4: calling `select_integration` twice with the same timestamp `t`, with
any velocities and any valid modes for the two calls, leaves the pose after
the second call equal to the pose after the first call, and the previous
timestamp is still `t`. -/
theorem select_integration_same_timestamp (s : skid_steering K) (v1 v2 : Velocity K) (t : K)
    (m1 m2 : Int) (h1 : m1 = 0 ∨ m1 = 1) (h2 : m2 = 0 ∨ m2 = 1) :
    (select_integration cos sin
        (set_integration_method (select_integration cos sin (set_integration_method s m1) v1 t) m2)
        v2 t).current_pose
      = (select_integration cos sin (set_integration_method s m1) v1 t).current_pose ∧
    (select_integration cos sin
        (set_integration_method (select_integration cos sin (set_integration_method s m1) v1 t) m2)
        v2 t).prev_pose
      = (select_integration cos sin (set_integration_method s m1) v1 t).prev_pose ∧
    (select_integration cos sin
        (set_integration_method (select_integration cos sin (set_integration_method s m1) v1 t) m2)
        v2 t).prev_time = t := by
  have hs1 : (set_integration_method s m1).method = 0 ∨ (set_integration_method s m1).method = 1 := by
    simp [set_integration_method, h1]
  have hc1 := select_integration_common cos sin (set_integration_method s m1) v1 t hs1
  generalize select_integration cos sin (set_integration_method s m1) v1 t = s1 at hc1 ⊢
  have hs2 : (set_integration_method s1 m2).method = 0 ∨ (set_integration_method s1 m2).method = 1 := by
    simp [set_integration_method, h2]
  have ht : (set_integration_method s1 m2).prev_time = t := by
    simp [set_integration_method, h2, hc1.1]
  have hp : (set_integration_method s1 m2).prev_pose = s1.current_pose := by
    simp [set_integration_method, h2, hc1.2.1]
  have hc2 := select_integration_common cos sin (set_integration_method s1 m2) v2 t hs2
  have hz := select_integration_zero_elapsed cos sin (set_integration_method s1 m2) v2 hs2
  rw [ht] at hz
  refine ⟨hz.trans hp, ?_, hc2.1⟩
  rw [hc2.2.1, hz, hp, hc1.2.1]

/-- Witness of the same-timestamp theorem: Euler at timestamp `2`, then
Runge-Kutta at timestamp `2` again with another velocity. -/
theorem select_integration_same_timestamp_witness :
    (select_integration Real.cos Real.sin
        (set_integration_method
          (select_integration Real.cos Real.sin
            (set_integration_method (new_skid_steering ({ x := 0, y := 0, theta := 0 } : Pose ℝ)) 0)
            { linear := 1, angular := 1 } 2) 1)
        { linear := 5, angular := 3 } 2).current_pose
      = (select_integration Real.cos Real.sin
          (set_integration_method (new_skid_steering ({ x := 0, y := 0, theta := 0 } : Pose ℝ)) 0)
          { linear := 1, angular := 1 } 2).current_pose :=
  (select_integration_same_timestamp Real.cos Real.sin
    (new_skid_steering ({ x := 0, y := 0, theta := 0 } : Pose ℝ))
    { linear := 1, angular := 1 } { linear := 5, angular := 3 } 2 0 1
    (Or.inl rfl) (Or.inr rfl)).1

/-- C5: after `set_integration_method(1)` the next `select_integration`
yields the midpoint formula with `dt = t - t0`, and after
`set_integration_method(0)` it yields the Euler formula; the heading update
is `theta + w * dt` in both.  Only the stored method decides: the state `s`
is arbitrary, and the new pose is also the new previous pose, with `t` the
new previous timestamp. -/
theorem select_integration_mode_switch (s : skid_steering K) (velocity : Velocity K) (t : K) :
    ((select_integration cos sin (set_integration_method s 1) velocity t).current_pose
        = { x := s.prev_pose.x + velocity.linear * (t - s.prev_time)
                  * cos (s.prev_pose.theta + velocity.angular * (t - s.prev_time) / 2)
            y := s.prev_pose.y + velocity.linear * (t - s.prev_time)
                  * sin (s.prev_pose.theta + velocity.angular * (t - s.prev_time) / 2)
            theta := s.prev_pose.theta + velocity.angular * (t - s.prev_time) } ∧
      (select_integration cos sin (set_integration_method s 1) velocity t).prev_pose
        = (select_integration cos sin (set_integration_method s 1) velocity t).current_pose ∧
      (select_integration cos sin (set_integration_method s 1) velocity t).prev_time = t) ∧
    ((select_integration cos sin (set_integration_method s 0) velocity t).current_pose
        = { x := s.prev_pose.x + velocity.linear * (t - s.prev_time) * cos s.prev_pose.theta
            y := s.prev_pose.y + velocity.linear * (t - s.prev_time) * sin s.prev_pose.theta
            theta := s.prev_pose.theta + velocity.angular * (t - s.prev_time) } ∧
      (select_integration cos sin (set_integration_method s 0) velocity t).prev_pose
        = (select_integration cos sin (set_integration_method s 0) velocity t).current_pose ∧
      (select_integration cos sin (set_integration_method s 0) velocity t).prev_time = t) := by
  refine ⟨⟨?_, ?_, ?_⟩, ?_, ?_, ?_⟩ <;>
    simp [select_integration, set_integration_method, euler_integration, runge_kutta_integration]

/-- C6: `reset_callback` followed by `select_integration` with zero velocity
at the stored previous timestamp yields pose `(0, 0, theta)`, with `theta`
the heading held before the reset, in either integration mode; the reset
reports success and does not touch the timestamp. -/
theorem reset_callback_then_zero_step (s : skid_steering K)
    (hm : s.method = 0 ∨ s.method = 1) :
    (reset_callback s).1 = true ∧
    (reset_callback s).2.prev_time = s.prev_time ∧
    (select_integration cos sin (reset_callback s).2 { linear := 0, angular := 0 }
        s.prev_time).current_pose = { x := 0, y := 0, theta := s.prev_pose.theta } ∧
    (select_integration cos sin (reset_callback s).2 { linear := 0, angular := 0 }
        s.prev_time).prev_pose = { x := 0, y := 0, theta := s.prev_pose.theta } := by
  have hm2 : (reset_callback s).2.method = 0 ∨ (reset_callback s).2.method = 1 := hm
  have hz := select_integration_zero_velocity cos sin (reset_callback s).2 s.prev_time hm2
  have hc := select_integration_common cos sin (reset_callback s).2
    { linear := 0, angular := 0 } s.prev_time hm2
  refine ⟨rfl, rfl, hz, ?_⟩
  rw [hc.2.1, hz]; rfl

/-- Witness of the reset-to-origin theorem: an estimator driven away from the
origin by one Runge-Kutta step, then reset. -/
theorem reset_callback_then_zero_step_witness :
    (select_integration Real.cos Real.sin
        (reset_callback
          (select_integration Real.cos Real.sin
            (set_integration_method (new_skid_steering ({ x := 4, y := 5, theta := 0 } : Pose ℝ)) 1)
            { linear := 1, angular := 0 } 3)).2
        { linear := 0, angular := 0 }
        (select_integration Real.cos Real.sin
            (set_integration_method (new_skid_steering ({ x := 4, y := 5, theta := 0 } : Pose ℝ)) 1)
            { linear := 1, angular := 0 } 3).prev_time).current_pose
      = { x := 0, y := 0,
          theta := (select_integration Real.cos Real.sin
            (set_integration_method (new_skid_steering ({ x := 4, y := 5, theta := 0 } : Pose ℝ)) 1)
            { linear := 1, angular := 0 } 3).prev_pose.theta } :=
  (reset_callback_then_zero_step Real.cos Real.sin
    (select_integration Real.cos Real.sin
      (set_integration_method (new_skid_steering ({ x := 4, y := 5, theta := 0 } : Pose ℝ)) 1)
      { linear := 1, angular := 0 } 3)
    (Or.inr (by simp [select_integration, set_integration_method, runge_kutta_integration,
      new_skid_steering]))).2.2.1

end IntegratorClaims

/-! ## Reset services and mode selector -/

section ResetClaims

variable {K : Type} [Field K] (cos sin : K → K)

/-- C7 (as stated) fails: on the constructed estimator, whose current pose is
`(0, 0, 0)`, the request `(5, -3, 6/5)` leaves the current pose at
`(0, 0, 0)`; only the previous pose takes the requested value. -/
theorem given_reset_keeps_current_pose :
    (given_pose_reset_callback (new_skid_steering ({ x := 0, y := 0, theta := 0 } : Pose ℚ))
      { x := 5, y := -3, theta := 6 / 5 }).2.current_pose = { x := 0, y := 0, theta := 0 } ∧
    (given_pose_reset_callback (new_skid_steering ({ x := 0, y := 0, theta := 0 } : Pose ℚ))
      { x := 5, y := -3, theta := 6 / 5 }).2.current_pose ≠ { x := 5, y := -3, theta := 6 / 5 } := by
  constructor
  · rfl
  · simp [given_pose_reset_callback, new_skid_steering]

/-- C7 (amended): for every estimator state and every request
`(x, y, theta)`, `given_pose_reset_callback` reports success and sets the
previous pose to `(x, y, theta)`; the current pose, the previous timestamp,
the integration mode and the stored velocity are unchanged.  The next
`select_integration` call in a valid mode, with zero velocity at the stored
previous timestamp, then yields the current pose `(x, y, theta)`. -/
theorem given_pose_reset_callback_sets_prev_pose (s : skid_steering K)
    (req : Given_reset_Request K) :
    (given_pose_reset_callback s req).1 = true ∧
    (given_pose_reset_callback s req).2.prev_pose
      = { x := req.x, y := req.y, theta := req.theta } ∧
    (given_pose_reset_callback s req).2.current_pose = s.current_pose ∧
    (given_pose_reset_callback s req).2.prev_time = s.prev_time ∧
    (given_pose_reset_callback s req).2.method = s.method ∧
    (given_pose_reset_callback s req).2.velocity = s.velocity ∧
    (select_integration cos sin (given_pose_reset_callback (set_integration_method s 0) req).2
        { linear := 0, angular := 0 } s.prev_time).current_pose
      = { x := req.x, y := req.y, theta := req.theta } ∧
    (select_integration cos sin (given_pose_reset_callback (set_integration_method s 1) req).2
        { linear := 0, angular := 0 } s.prev_time).current_pose
      = { x := req.x, y := req.y, theta := req.theta } := by
  refine ⟨rfl, rfl, rfl, rfl, rfl, rfl, ?_, ?_⟩ <;>
    simp [select_integration, set_integration_method, given_pose_reset_callback,
      euler_integration, runge_kutta_integration]

end ResetClaims

section ModeClaims

variable {K : Type} [Field K] (cos sin : K → K)

/-- Every call keeps a valid method valid. -/
theorem call_apply_method (s : skid_steering K) (c : Call K)
    (h : s.method = 0 ∨ s.method = 1) :
    (Call.apply cos sin s c).method = 0 ∨ (Call.apply cos sin s c).method = 1 := by
  cases c with
  | set_integration_method m =>
    by_cases hv : m = 0 ∨ m = 1
    · simp [Call.apply, set_integration_method, hv]
    · simpa [Call.apply, set_integration_method, hv] using h
  | select_integration velocity current_time =>
    rw [Call.apply, (select_integration_common cos sin s velocity current_time h).2.2.2.1]
    exact h
  | reset_callback => exact h
  | given_pose_reset_callback req => exact h

/-- Every sequence of calls keeps a valid method valid. -/
theorem run_method (calls : List (Call K)) (s : skid_steering K)
    (h : s.method = 0 ∨ s.method = 1) :
    (run cos sin s calls).method = 0 ∨ (run cos sin s calls).method = 1 := by
  induction calls generalizing s with
  | nil => exact h
  | cons c cs ih => exact ih (Call.apply cos sin s c) (call_apply_method cos sin s c h)

/-- C8: `set_integration_method(m)` stores `m` when `m` is 0 or 1 and
otherwise keeps the stored method; it changes no other field (its result is
always an estimator state, there is no error outcome).  Starting from the
constructed state, whatever the content of `prev_pose`, the method is 0 or 1
after every sequence of calls. -/
theorem set_integration_method_validation :
    (∀ (s : skid_steering K) (m : Int),
      (set_integration_method s m).method = (if m = 0 ∨ m = 1 then m else s.method) ∧
      (set_integration_method s m).current_pose = s.current_pose ∧
      (set_integration_method s m).prev_pose = s.prev_pose ∧
      (set_integration_method s m).velocity = s.velocity ∧
      (set_integration_method s m).prev_time = s.prev_time ∧
      dynrec_callback m s = set_integration_method s m) ∧
    (∀ (indeterminate : Pose K) (calls : List (Call K)),
      (run cos sin (new_skid_steering indeterminate) calls).method = 0 ∨
      (run cos sin (new_skid_steering indeterminate) calls).method = 1) := by
  constructor
  · intro s m
    by_cases hv : m = 0 ∨ m = 1 <;> simp [set_integration_method, dynrec_callback, hv]
  · intro indeterminate calls
    exact run_method cos sin calls _ (Or.inl rfl)

end ModeClaims

/-! ## Claims over the reals -/

section RealClaims

/-- A displacement `a * (cos α, sin α)` vanishes only when `a` does. -/
theorem displacement_eq_zero (a α : ℝ) (hc : a * Real.cos α = 0) (hs : a * Real.sin α = 0) :
    a = 0 := by
  have h1 : a * (Real.cos α ^ 2 + Real.sin α ^ 2) = 0 := by
    have : a * (Real.cos α ^ 2 + Real.sin α ^ 2)
        = a * Real.cos α * Real.cos α + a * Real.sin α * Real.sin α := by ring
    rw [this, hc, hs]; ring
  rwa [Real.cos_sq_add_sin_sq, mul_one] at h1

/-- C3 (as stated) fails: an estimator at pose `(0, 0, 0)` with previous
timestamp `1` (reached from the constructed state by one step at timestamp
`1`), called with velocity `(1, 0)` at the earlier timestamp `0`, moves to
`x = -1`. -/
theorem earlier_timestamp_moves_pose_back :
    (0 : ℝ) < (select_integration Real.cos Real.sin
        (new_skid_steering ({ x := 0, y := 0, theta := 0 } : Pose ℝ))
        { linear := 0, angular := 0 } 1).prev_time ∧
    (select_integration Real.cos Real.sin
        (select_integration Real.cos Real.sin
          (new_skid_steering ({ x := 0, y := 0, theta := 0 } : Pose ℝ))
          { linear := 0, angular := 0 } 1)
        { linear := 1, angular := 0 } 0).current_pose = { x := -1, y := 0, theta := 0 } ∧
    (select_integration Real.cos Real.sin
        (select_integration Real.cos Real.sin
          (new_skid_steering ({ x := 0, y := 0, theta := 0 } : Pose ℝ))
          { linear := 0, angular := 0 } 1)
        { linear := 1, angular := 0 } 0).current_pose
      ≠ (select_integration Real.cos Real.sin
          (new_skid_steering ({ x := 0, y := 0, theta := 0 } : Pose ℝ))
          { linear := 0, angular := 0 } 1).prev_pose := by
  refine ⟨?_, ?_, ?_⟩ <;>
    simp [select_integration, euler_integration, new_skid_steering]

/-- C3 (amended): for a timestamp `t` strictly smaller than the stored
previous timestamp the elapsed interval is not clamped: `select_integration`
applies the negative `dt = t - prev_time` in the step formulas.  It records
`t`, copies the new pose into the previous pose, and the new pose is
`(x + v * dt * cos theta, y + v * dt * sin theta, theta + w * dt)` in mode 0
and `(x + v * dt * cos (theta + w * dt / 2),
y + v * dt * sin (theta + w * dt / 2), theta + w * dt)` in mode 1.  Read over
the reals, the pose is left equal to the previous pose exactly when the
linear and the angular velocity are both zero. -/
theorem select_integration_negative_elapsed (s : skid_steering ℝ) (velocity : Velocity ℝ)
    (t : ℝ) (hm : s.method = 0 ∨ s.method = 1) (ht : t < s.prev_time) :
    t - s.prev_time < 0 ∧
    (select_integration Real.cos Real.sin s velocity t).prev_time = t ∧
    (select_integration Real.cos Real.sin s velocity t).prev_pose
      = (select_integration Real.cos Real.sin s velocity t).current_pose ∧
    (s.method = 0 →
      (select_integration Real.cos Real.sin s velocity t).current_pose
        = { x := s.prev_pose.x
                  + velocity.linear * (t - s.prev_time) * Real.cos s.prev_pose.theta
            y := s.prev_pose.y
                  + velocity.linear * (t - s.prev_time) * Real.sin s.prev_pose.theta
            theta := s.prev_pose.theta + velocity.angular * (t - s.prev_time) }) ∧
    (s.method = 1 →
      (select_integration Real.cos Real.sin s velocity t).current_pose
        = { x := s.prev_pose.x + velocity.linear * (t - s.prev_time)
                  * Real.cos (s.prev_pose.theta + velocity.angular * (t - s.prev_time) / 2)
            y := s.prev_pose.y + velocity.linear * (t - s.prev_time)
                  * Real.sin (s.prev_pose.theta + velocity.angular * (t - s.prev_time) / 2)
            theta := s.prev_pose.theta + velocity.angular * (t - s.prev_time) }) ∧
    ((select_integration Real.cos Real.sin s velocity t).current_pose = s.prev_pose
      ↔ velocity.linear = 0 ∧ velocity.angular = 0) := by
  have hc := select_integration_common Real.cos Real.sin s velocity t hm
  have hdt : t - s.prev_time ≠ 0 := (sub_neg.2 ht).ne
  refine ⟨sub_neg.2 ht, hc.1, hc.2.1, ?_, ?_, ?_, ?_⟩
  · intro h0
    rw [select_integration_euler Real.cos Real.sin s velocity t h0]
    rfl
  · intro h1
    rw [select_integration_runge_kutta Real.cos Real.sin s velocity t h1]
    rfl
  · intro h
    rcases hp : s.prev_pose with ⟨px, py, pth⟩
    have hw : velocity.angular = 0 := by
      have h3 := hc.2.2.1
      rw [h, hp] at h3
      simp only [self_eq_add_right, mul_eq_zero] at h3
      exact h3.resolve_right hdt
    refine ⟨?_, hw⟩
    rcases hm with h0 | h1
    · rw [select_integration_euler Real.cos Real.sin s velocity t h0] at h
      simp only [euler_integration, hp, Pose.mk.injEq, add_right_eq_self] at h
      have := displacement_eq_zero (velocity.linear * (t - s.prev_time)) pth h.1 h.2.1
      exact (mul_eq_zero.1 this).resolve_right hdt
    · rw [select_integration_runge_kutta Real.cos Real.sin s velocity t h1] at h
      simp only [runge_kutta_integration, hp, Pose.mk.injEq, add_right_eq_self] at h
      have := displacement_eq_zero (velocity.linear * (t - s.prev_time)) _ h.1 h.2.1
      exact (mul_eq_zero.1 this).resolve_right hdt
  · rintro ⟨hv, hw⟩
    have hz := select_integration_zero_velocity Real.cos Real.sin s t hm
    have hvel : velocity = { linear := 0, angular := 0 } := by
      cases velocity; simp_all
    rw [hvel]; exact hz

/-- Witness of the negative-elapsed theorem, with nonzero velocities: from
previous timestamp `1` a call at timestamp `0` moves the pose backwards.  In
mode 0, from `(2, 3, 0)` with velocity `(1, 5)`, the pose becomes
`(1, 3, -5)`; in mode 1, from `(2, 3, 1)` with velocity `(1, 2)`, the
midpoint heading is `1 + 2 * (-1) / 2 = 0` and the pose becomes
`(1, 3, -1)`.  Neither equals the previous pose. -/
theorem select_integration_negative_elapsed_witness :
    ((0 : ℝ) < 1 ∧
      (select_integration Real.cos Real.sin
          ({ current_pose := { x := 2, y := 3, theta := 0 }
             prev_pose := { x := 2, y := 3, theta := 0 }
             velocity := { linear := 0, angular := 0 }
             prev_time := 1
             method := 0 } : skid_steering ℝ)
          { linear := 1, angular := 5 } 0).current_pose = { x := 1, y := 3, theta := -5 } ∧
      (select_integration Real.cos Real.sin
          ({ current_pose := { x := 2, y := 3, theta := 0 }
             prev_pose := { x := 2, y := 3, theta := 0 }
             velocity := { linear := 0, angular := 0 }
             prev_time := 1
             method := 0 } : skid_steering ℝ)
          { linear := 1, angular := 5 } 0).current_pose ≠ { x := 2, y := 3, theta := 0 }) ∧
    ((select_integration Real.cos Real.sin
          ({ current_pose := { x := 2, y := 3, theta := 1 }
             prev_pose := { x := 2, y := 3, theta := 1 }
             velocity := { linear := 0, angular := 0 }
             prev_time := 1
             method := 1 } : skid_steering ℝ)
          { linear := 1, angular := 2 } 0).current_pose = { x := 1, y := 3, theta := -1 } ∧
      (select_integration Real.cos Real.sin
          ({ current_pose := { x := 2, y := 3, theta := 1 }
             prev_pose := { x := 2, y := 3, theta := 1 }
             velocity := { linear := 0, angular := 0 }
             prev_time := 1
             method := 1 } : skid_steering ℝ)
          { linear := 1, angular := 2 } 0).current_pose ≠ { x := 2, y := 3, theta := 1 }) := by
  have he := select_integration_negative_elapsed
    ({ current_pose := { x := 2, y := 3, theta := 0 }
       prev_pose := { x := 2, y := 3, theta := 0 }
       velocity := { linear := 0, angular := 0 }
       prev_time := 1
       method := 0 } : skid_steering ℝ)
    { linear := 1, angular := 5 } 0 (Or.inl rfl) (by norm_num)
  have hr := select_integration_negative_elapsed
    ({ current_pose := { x := 2, y := 3, theta := 1 }
       prev_pose := { x := 2, y := 3, theta := 1 }
       velocity := { linear := 0, angular := 0 }
       prev_time := 1
       method := 1 } : skid_steering ℝ)
    { linear := 1, angular := 2 } 0 (Or.inr rfl) (by norm_num)
  refine ⟨⟨one_pos, ?_, ?_⟩, ?_, ?_⟩
  · rw [he.2.2.2.1 rfl]; norm_num
  · intro h
    exact one_ne_zero (he.2.2.2.2.2.1 h).1
  · rw [hr.2.2.2.2.1 rfl]; norm_num
  · intro h
    exact one_ne_zero (hr.2.2.2.2.2.1 h).1

/-- The cosine is 1-Lipschitz. -/
theorem abs_cos_sub_cos_le (a b : ℝ) : |Real.cos a - Real.cos b| ≤ |a - b| := by
  rw [Real.cos_sub_cos, abs_mul, abs_mul]
  have h1 : |Real.sin ((a + b) / 2)| ≤ 1 := Real.abs_sin_le_one _
  have h2 : |Real.sin ((a - b) / 2)| ≤ |(a - b) / 2| := Real.abs_sin_le_abs
  have h3 : |(a - b) / 2| = |a - b| / 2 := by rw [abs_div, abs_two]
  have h4 : |(-2 : ℝ)| = 2 := by rw [abs_neg, abs_two]
  have h5 := abs_nonneg (Real.sin ((a + b) / 2))
  have h6 := abs_nonneg (Real.sin ((a - b) / 2))
  rw [h4]
  nlinarith [mul_le_mul h1 h2 h6 zero_le_one]

/-- The sine is 1-Lipschitz. -/
theorem abs_sin_sub_sin_le (a b : ℝ) : |Real.sin a - Real.sin b| ≤ |a - b| := by
  rw [Real.sin_sub_sin, abs_mul, abs_mul]
  have h1 : |Real.cos ((a + b) / 2)| ≤ 1 := Real.abs_cos_le_one _
  have h2 : |Real.sin ((a - b) / 2)| ≤ |(a - b) / 2| := Real.abs_sin_le_abs
  have h3 : |(a - b) / 2| = |a - b| / 2 := by rw [abs_div, abs_two]
  have h4 : |(2 : ℝ)| = 2 := abs_two
  have h5 := abs_nonneg (Real.cos ((a + b) / 2))
  have h6 := abs_nonneg (Real.sin ((a - b) / 2))
  rw [h4]
  nlinarith [mul_le_mul h2 h1 h5 (abs_nonneg ((a - b) / 2))]

/-- The difference of two displacements of the same length `a` along the
headings `θ` and `θ + δ / 2`, measured through a 1-Lipschitz `f`. -/
theorem displacement_gap (f : ℝ → ℝ) (hf : ∀ a b, |f a - f b| ≤ |a - b|)
    (p v w dt θ : ℝ) :
    |(p + v * dt * f θ) - (p + v * dt * f (θ + w * dt / 2))| ≤ |v| * |w| * dt ^ 2 / 2 := by
  have h1 : (p + v * dt * f θ) - (p + v * dt * f (θ + w * dt / 2))
      = v * dt * (f θ - f (θ + w * dt / 2)) := by ring
  have h2 : |f θ - f (θ + w * dt / 2)| ≤ |w| * |dt| / 2 := by
    refine (hf _ _).trans (le_of_eq ?_)
    have : θ - (θ + w * dt / 2) = -(w * dt / 2) := by ring
    rw [this, abs_neg, abs_div, abs_mul, abs_two]
  have h3 : |dt| * |dt| = dt ^ 2 := by rw [abs_mul_abs_self, sq]
  rw [h1, abs_mul, abs_mul]
  calc |v| * |dt| * |f θ - f (θ + w * dt / 2)|
      ≤ |v| * |dt| * (|w| * |dt| / 2) :=
        mul_le_mul_of_nonneg_left h2 (mul_nonneg (abs_nonneg v) (abs_nonneg dt))
    _ = |v| * |w| * (|dt| * |dt|) / 2 := by ring
    _ = |v| * |w| * dt ^ 2 / 2 := by rw [h3]

/-- C9: from the same state, the Euler step and the Runge-Kutta (midpoint)
step yield the same heading, and their positions differ in each coordinate
by at most `|v| * |w| * dt ^ 2 / 2` with `dt = t - prev_time`.  The two steps
coincide when `w = 0` and when `dt = 0`, and as `t` tends to the previous
timestamp (`dt` tends to 0) the position estimates of both schemes tend to
the same value, the previous position. -/
theorem euler_runge_kutta_divergence (s : skid_steering ℝ) (velocity : Velocity ℝ) (t : ℝ) :
    (euler_integration Real.cos Real.sin s velocity t).current_pose.theta
      = (runge_kutta_integration Real.cos Real.sin s velocity t).current_pose.theta ∧
    |(euler_integration Real.cos Real.sin s velocity t).current_pose.x
        - (runge_kutta_integration Real.cos Real.sin s velocity t).current_pose.x|
      ≤ |velocity.linear| * |velocity.angular| * (t - s.prev_time) ^ 2 / 2 ∧
    |(euler_integration Real.cos Real.sin s velocity t).current_pose.y
        - (runge_kutta_integration Real.cos Real.sin s velocity t).current_pose.y|
      ≤ |velocity.linear| * |velocity.angular| * (t - s.prev_time) ^ 2 / 2 ∧
    euler_integration Real.cos Real.sin s { linear := velocity.linear, angular := 0 } t
      = runge_kutta_integration Real.cos Real.sin s { linear := velocity.linear, angular := 0 } t ∧
    euler_integration Real.cos Real.sin s velocity s.prev_time
      = runge_kutta_integration Real.cos Real.sin s velocity s.prev_time ∧
    Filter.Tendsto
      (fun u => (euler_integration Real.cos Real.sin s velocity u).current_pose.x)
      (nhds s.prev_time) (nhds s.prev_pose.x) ∧
    Filter.Tendsto
      (fun u => (runge_kutta_integration Real.cos Real.sin s velocity u).current_pose.x)
      (nhds s.prev_time) (nhds s.prev_pose.x) ∧
    Filter.Tendsto
      (fun u => (euler_integration Real.cos Real.sin s velocity u).current_pose.y)
      (nhds s.prev_time) (nhds s.prev_pose.y) ∧
    Filter.Tendsto
      (fun u => (runge_kutta_integration Real.cos Real.sin s velocity u).current_pose.y)
      (nhds s.prev_time) (nhds s.prev_pose.y) := by
  refine ⟨rfl, ?_, ?_, ?_, ?_, ?_, ?_, ?_, ?_⟩
  · exact displacement_gap Real.cos abs_cos_sub_cos_le _ _ _ _ _
  · exact displacement_gap Real.sin abs_sin_sub_sin_le _ _ _ _ _
  · simp [euler_integration, runge_kutta_integration]
  · simp [euler_integration, runge_kutta_integration]
  · refine Continuous.tendsto' ?_ _ _ (by simp [euler_integration])
    simp only [euler_integration]
    fun_prop
  · refine Continuous.tendsto' ?_ _ _ (by simp [runge_kutta_integration])
    simp only [runge_kutta_integration]
    fun_prop
  · refine Continuous.tendsto' ?_ _ _ (by simp [euler_integration])
    simp only [euler_integration]
    fun_prop
  · refine Continuous.tendsto' ?_ _ _ (by simp [runge_kutta_integration])
    simp only [runge_kutta_integration]
    fun_prop

end RealClaims

end Odometry
